import Mathlib

/-!
Verification of the model-lifecycle core of two translation services:
a Bergamot-based service (`src/bergamot-service/main.py`) and a Hugging Face
MarianMT service (`src/huggingface-mt-service/main.py`).

The shallow embedding models the process state as association lists:
the model caches (`loaded_translators`, `loaded_models`) and, for the
Bergamot service, the on-disk artifact store under `MODEL_CACHE_DIR`.
External collaborators (HTTP fetch, gzip decompression, the
`from_pretrained` constructors, the MarianMT `generate` step) are taken
as explicit function parameters, so that theorems quantify over their
behaviour and failure modes.
-/

namespace Marketplace

/-- Python dict assignment `d[k] = v`: the new binding shadows any earlier
binding for the same key (lookup takes the first match). -/
def dset {κ α : Type} (l : List (κ × α)) (k : κ) (v : α) : List (κ × α) :=
  (k, v) :: l

/-- Python `str.strip()` at the character level: drop whitespace from both
ends. -/
def pyStrip (s : String) : String :=
  ⟨((s.toList.dropWhile Char.isWhitespace).reverse.dropWhile Char.isWhitespace).reverse⟩

/-- Python `str.split(sep)` (all occurrences) at the character level: split
the character list at every separator, keeping empty pieces, as Python does
for a one-character separator. -/
def pySplitChars (sep : Char) : List Char → List (List Char)
  | [] => [[]]
  | c :: cs =>
    let r := pySplitChars sep cs
    if c = sep then [] :: r
    else
      match r with
      | [] => [[c]]
      | h :: t => (c :: h) :: t

/-- Python `str.split(sep)` on strings. -/
def pySplit (s : String) (sep : Char) : List String :=
  (pySplitChars sep s.toList).map (fun l => ⟨l⟩)

/-- Python `str.split(sep, 1)`: split at the first separator only; `none`
when the separator does not occur. -/
def pySplitFirst (sep : Char) : List Char → List Char × Option (List Char)
  | [] => ([], none)
  | c :: cs =>
    if c = sep then ([], some cs)
    else
      let r := pySplitFirst sep cs
      (c :: r.1, r.2)

/-- Python `str.endswith(suffix)` at the character level. -/
def pyEndsWith (s suffix : String) : Bool :=
  suffix.toList.isSuffixOf s.toList

namespace BG

/-- Bergamot model registry `MODEL_REGISTRY`: (source, target) pair to model URL. -/
def MODEL_REGISTRY : List ((String × String) × String) := [
  (("en", "es"), "https://storage.googleapis.com/bergamot-models-sandbox/prod/ende/model.enes.intgemm.alphas.bin.gz"),
  (("en", "de"), "https://storage.googleapis.com/bergamot-models-sandbox/prod/ende/model.ende.intgemm.alphas.bin.gz"),
  (("en", "fr"), "https://storage.googleapis.com/bergamot-models-sandbox/prod/enfr/model.enfr.intgemm.alphas.bin.gz"),
  (("en", "pt"), "https://storage.googleapis.com/bergamot-models-sandbox/prod/enpt/model.enpt.intgemm.alphas.bin.gz"),
  (("en", "it"), "https://storage.googleapis.com/bergamot-models-sandbox/prod/enit/model.enit.intgemm.alphas.bin.gz"),
  (("en", "nl"), "https://storage.googleapis.com/bergamot-models-sandbox/prod/ennl/model.ennl.intgemm.alphas.bin.gz"),
  (("en", "ru"), "https://storage.googleapis.com/bergamot-models-sandbox/prod/enru/model.enru.intgemm.alphas.bin.gz"),
  (("en", "pl"), "https://storage.googleapis.com/bergamot-models-sandbox/prod/enpl/model.enpl.intgemm.alphas.bin.gz"),
  (("en", "cs"), "https://storage.googleapis.com/bergamot-models-sandbox/prod/encs/model.encs.intgemm.alphas.bin.gz"),
  (("en", "et"), "https://storage.googleapis.com/bergamot-models-sandbox/prod/enet/model.enet.intgemm.alphas.bin.gz"),
  (("es", "en"), "https://storage.googleapis.com/bergamot-models-sandbox/prod/esen/model.esen.intgemm.alphas.bin.gz"),
  (("de", "en"), "https://storage.googleapis.com/bergamot-models-sandbox/prod/deen/model.deen.intgemm.alphas.bin.gz"),
  (("fr", "en"), "https://storage.googleapis.com/bergamot-models-sandbox/prod/fren/model.fren.intgemm.alphas.bin.gz"),
  (("pt", "en"), "https://storage.googleapis.com/bergamot-models-sandbox/prod/pten/model.pten.intgemm.alphas.bin.gz"),
  (("it", "en"), "https://storage.googleapis.com/bergamot-models-sandbox/prod/iten/model.iten.intgemm.alphas.bin.gz"),
  (("nl", "en"), "https://storage.googleapis.com/bergamot-models-sandbox/prod/nlen/model.nlen.intgemm.alphas.bin.gz"),
  (("ru", "en"), "https://storage.googleapis.com/bergamot-models-sandbox/prod/ruen/model.ruen.intgemm.alphas.bin.gz"),
  (("pl", "en"), "https://storage.googleapis.com/bergamot-models-sandbox/prod/plen/model.plen.intgemm.alphas.bin.gz"),
  (("cs", "en"), "https://storage.googleapis.com/bergamot-models-sandbox/prod/csen/model.csen.intgemm.alphas.bin.gz"),
  (("et", "en"), "https://storage.googleapis.com/bergamot-models-sandbox/prod/eten/model.eten.intgemm.alphas.bin.gz")
]

/-- The dict value published by `get_translator`:
`{"source": ..., "target": ..., "loaded": True}`. -/
structure Translator where
  source : String
  target : String
  loaded : Bool
deriving DecidableEq, Repr

/-- The `loaded_translators` module-level cache: pair key `"src-tgt"` to entry. -/
abbrev BGState := List (String × Translator)

/-- On-disk artifact store under `MODEL_CACHE_DIR`: relative path to byte content. -/
abbrev FS := List (String × List Nat)

/-- The function `get_translator(source_lang, target_lang)`: return the cached
entry for `"src-tgt"` if present, otherwise publish the placeholder entry and
return it. It never consults `MODEL_REGISTRY` and never touches the filesystem. -/
def get_translator (σ : BGState) (source_lang target_lang : String) :
    Translator × BGState :=
  let pair_key := source_lang ++ "-" ++ target_lang
  match List.lookup pair_key σ with
  | some e => (e, σ)
  | none =>
    let e : Translator := ⟨source_lang, target_lang, true⟩
    (e, dset σ pair_key e)

/-- The coroutine `download_model(source_lang, target_lang)`. `fetch` models the
HTTP GET (`none` covers both a non-200 status and a raised exception); `gunzip`
models `gzip.decompress`, whose `none` models a raised decompression error —
both raises land in the function's own `except` clause, which returns `None`
with nothing written. Returns the model directory on success together with
the updated artifact store. -/
def download_model (fetch : String → Option (List Nat))
    (gunzip : List Nat → Option (List Nat))
    (fs : FS) (source_lang target_lang : String) : Option String × FS :=
  match List.lookup (source_lang, target_lang) MODEL_REGISTRY with
  | none => (none, fs)
  | some url =>
    let model_dir := source_lang ++ "-" ++ target_lang
    let model_file := model_dir ++ "/model.bin"
    if (List.lookup model_file fs).isSome then (some model_dir, fs)
    else
      match fetch url with
      | none => (none, fs)
      | some content0 =>
        if pyEndsWith url ".gz" then
          match gunzip content0 with
          | none => (none, fs)
          | some content => (some model_dir, dset fs model_file content)
        else (some model_dir, dset fs model_file content0)

/-- The function `translate_with_bergamot`: the placeholder tagging translation. -/
def translate_with_bergamot (text source_lang target_lang : String) : String :=
  "[" ++ source_lang ++ "->" ++ target_lang ++ "] " ++ text

/-- The function `translate_with_ctranslate2`: the fallback placeholder. -/
def translate_with_ctranslate2 (text source_lang target_lang : String) : String :=
  "[" ++ source_lang ++ "->" ++ target_lang ++ "] " ++ text

/-- The engine dispatch shared by the `/translate` and `/translate/batch`
handlers: try bergamot, then ctranslate2, then the inline placeholder
f-string; yields (translated text, engine name). -/
def engine_branch (bergamotAvailable ct2Available : Bool)
    (text source_lang target_lang : String) : String × String :=
  if bergamotAvailable then
    (translate_with_bergamot text source_lang target_lang, "bergamot")
  else if ct2Available then
    (translate_with_ctranslate2 text source_lang target_lang, "ctranslate2")
  else
    ("[" ++ source_lang ++ "->" ++ target_lang ++ "] " ++ text, "placeholder")

/-- The `/translate` handler: reject unregistered pairs with HTTP 400, else
call `get_translator` and produce (translated text, engine name) plus the
updated cache. -/
def translate (bergamotAvailable ct2Available : Bool) (σ : BGState)
    (text source_lang target_lang : String) :
    Except Nat (String × String × BGState) :=
  if (List.lookup (source_lang, target_lang) MODEL_REGISTRY).isNone then .error 400
  else
    let gt := get_translator σ source_lang target_lang
    let te := engine_branch bergamotAvailable ct2Available text source_lang target_lang
    .ok (te.1, te.2, gt.2)

/-- The `/translate/batch` handler: reject unregistered pairs with HTTP 400,
else call `get_translator` once and append each text's translation in order
(the `translations.append` loop). -/
def translate_batch (bergamotAvailable ct2Available : Bool) (σ : BGState)
    (texts : List String) (source_lang target_lang : String) :
    Except Nat (List String × String × BGState) :=
  if (List.lookup (source_lang, target_lang) MODEL_REGISTRY).isNone then .error 400
  else
    let gt := get_translator σ source_lang target_lang
    let res := texts.foldl
      (fun acc text =>
        let te := engine_branch bergamotAvailable ct2Available text source_lang target_lang
        (acc.1 ++ [te.1], te.2))
      (([] : List String), "placeholder")
    .ok (res.1, res.2, gt.2)

/-- One request through the `/translate` handler at the level of the whole
process state (translator cache, artifact store). The handler body calls only
`get_translator` and the pure engine functions, so the artifact store
component is carried through untouched. -/
def translate_request (bergamotAvailable ct2Available : Bool) (st : BGState × FS)
    (text source_lang target_lang : String) :
    Except Nat (String × String) × (BGState × FS) :=
  match translate bergamotAvailable ct2Available st.1 text source_lang target_lang with
  | .error n => (.error n, st)
  | .ok r => (.ok (r.1, r.2.1), (r.2.2, st.2))

/-- One iteration of the preload loop in `lifespan`: strip the token, require a
dash, split at the first dash, and download only registered pairs. Download
failures return `none` inside `download_model` and are simply ignored. -/
def preload_step (fetch : String → Option (List Nat))
    (gunzip : List Nat → Option (List Nat))
    (fs : FS) (pair0 : String) : FS :=
  let pair := pyStrip pair0
  if pair ≠ "" ∧ pair.toList.contains '-' then
    match pySplitFirst '-' pair.toList with
    | (_, none) => fs
    | (a, some b) =>
      if (List.lookup ((⟨a⟩ : String), (⟨b⟩ : String)) MODEL_REGISTRY).isSome then
        (download_model fetch gunzip fs ⟨a⟩ ⟨b⟩).2
      else fs
  else fs

/-- The preload loop of the Bergamot `lifespan`: fold `preload_step` over the
configured pair tokens. -/
def preload (fetch : String → Option (List Nat))
    (gunzip : List Nat → Option (List Nat))
    (fs : FS) (pairs : List String) : FS :=
  pairs.foldl (preload_step fetch gunzip) fs

/-- The Bergamot `lifespan` preload at the level of the whole process state
(translator cache, artifact store). The loop body calls only
`download_model`, which never touches `loaded_translators`, so the translator
cache component is carried through untouched. -/
def lifespan_preload (fetch : String → Option (List Nat))
    (gunzip : List Nat → Option (List Nat))
    (st : BGState × FS) (pairs : List String) : BGState × FS :=
  (st.1, preload fetch gunzip st.2 pairs)

end BG

namespace HF

/-- The `MODEL_MAPPING` registry: `"src-tgt"` key to Helsinki-NLP model name. -/
def MODEL_MAPPING : List (String × String) := [
  ("en-hi", "Helsinki-NLP/opus-mt-en-hi"),
  ("en-es", "Helsinki-NLP/opus-mt-en-es"),
  ("en-fr", "Helsinki-NLP/opus-mt-en-fr"),
  ("en-de", "Helsinki-NLP/opus-mt-en-de"),
  ("en-it", "Helsinki-NLP/opus-mt-en-it"),
  ("en-pt", "Helsinki-NLP/opus-mt-en-pt"),
  ("en-nl", "Helsinki-NLP/opus-mt-en-nl"),
  ("en-ru", "Helsinki-NLP/opus-mt-en-ru"),
  ("en-zh", "Helsinki-NLP/opus-mt-en-zh"),
  ("en-ja", "Helsinki-NLP/opus-mt-en-jap"),
  ("en-ko", "Helsinki-NLP/opus-mt-en-ko"),
  ("en-ar", "Helsinki-NLP/opus-mt-en-ar"),
  ("en-tr", "Helsinki-NLP/opus-mt-en-tr"),
  ("en-vi", "Helsinki-NLP/opus-mt-en-vi"),
  ("en-th", "Helsinki-NLP/opus-mt-en-th"),
  ("en-id", "Helsinki-NLP/opus-mt-en-id"),
  ("en-pl", "Helsinki-NLP/opus-mt-en-pl"),
  ("en-he", "Helsinki-NLP/opus-mt-en-he"),
  ("en-mul", "Helsinki-NLP/opus-mt-en-mul"),
  ("hi-en", "Helsinki-NLP/opus-mt-hi-en"),
  ("es-en", "Helsinki-NLP/opus-mt-es-en"),
  ("fr-en", "Helsinki-NLP/opus-mt-fr-en"),
  ("de-en", "Helsinki-NLP/opus-mt-de-en"),
  ("it-en", "Helsinki-NLP/opus-mt-it-en"),
  ("pt-en", "Helsinki-NLP/opus-mt-pt-en"),
  ("nl-en", "Helsinki-NLP/opus-mt-nl-en"),
  ("ru-en", "Helsinki-NLP/opus-mt-ru-en"),
  ("zh-en", "Helsinki-NLP/opus-mt-zh-en"),
  ("ja-en", "Helsinki-NLP/opus-mt-jap-en"),
  ("ko-en", "Helsinki-NLP/opus-mt-ko-en"),
  ("ar-en", "Helsinki-NLP/opus-mt-ar-en"),
  ("tr-en", "Helsinki-NLP/opus-mt-tr-en"),
  ("es-fr", "Helsinki-NLP/opus-mt-es-fr"),
  ("fr-es", "Helsinki-NLP/opus-mt-fr-es"),
  ("es-it", "Helsinki-NLP/opus-mt-es-it"),
  ("it-es", "Helsinki-NLP/opus-mt-it-es"),
  ("es-pt", "Helsinki-NLP/opus-mt-es-pt"),
  ("pt-es", "Helsinki-NLP/opus-mt-pt-es")
]

/-- `MULTILINGUAL_TARGETS`: Indian-language targets served by the multilingual model. -/
def MULTILINGUAL_TARGETS : List String :=
  ["ta", "te", "bn", "mr", "gu", "kn", "ml", "pa", "or"]

/-- The function `get_model_name`: the source checks the multilingual grouping
condition first and, when it holds, returns `MODEL_MAPPING.get("en-mul")`
without ever performing the exact-pair lookup; the exact lookup runs only in
the other branch. -/
def get_model_name (source_lang target_lang : String) : Option String :=
  if source_lang = "en" ∧ target_lang ∈ MULTILINGUAL_TARGETS then
    List.lookup "en-mul" MODEL_MAPPING
  else
    List.lookup (source_lang ++ "-" ++ target_lang) MODEL_MAPPING

/-- Which lookups `get_model_name` performs. -/
inductive Probe where
  | exact
  | grouping
deriving DecidableEq, Repr

/-- `get_model_name` instrumented with the list of lookups it performs, in
order. The grouping condition is evaluated first in both branches; the
exact-pair lookup is performed only when the grouping condition fails. -/
def get_model_name_probed (source_lang target_lang : String) :
    Option String × List Probe :=
  if source_lang = "en" ∧ target_lang ∈ MULTILINGUAL_TARGETS then
    (List.lookup "en-mul" MODEL_MAPPING, [Probe.grouping])
  else
    (List.lookup (source_lang ++ "-" ++ target_lang) MODEL_MAPPING,
     [Probe.grouping, Probe.exact])

/-- Modelled from the spec: resolution in the order the spec states it, exact
(source, target) lookup first, grouping rule consulted only on a miss. Used
to compare the source's `get_model_name` against the spec's semantics. -/
def resolve_spec (source_lang target_lang : String) : Option String :=
  match List.lookup (source_lang ++ "-" ++ target_lang) MODEL_MAPPING with
  | some m => some m
  | none =>
    if source_lang = "en" ∧ target_lang ∈ MULTILINGUAL_TARGETS then
      List.lookup "en-mul" MODEL_MAPPING
    else none

/-- Process state of the Hugging Face service: the `loaded_models` cache
(model name to the cached `(model, tokenizer)` pair, both opaque handles) and
the log of load episodes that actually constructed a model. -/
structure HFState where
  loaded_models : List (String × (Nat × Nat))
  loadEvents : List String
deriving DecidableEq, Repr

/-- The function `load_model(model_name)`. The two `from_pretrained`
constructors are parameters; a `.error` models a raised exception. The fast
path returns the cached pair untouched; the slow path constructs the
tokenizer, then the model, and only then publishes `(model, tokenizer)` into
`loaded_models`. An exception at either construction step leaves the state
exactly as it was. -/
def load_model (tokFromPretrained modelFromPretrained : String → Except String Nat)
    (σ : HFState) (model_name : String) :
    Except String (Nat × Nat) × HFState :=
  match List.lookup model_name σ.loaded_models with
  | some p => (.ok p, σ)
  | none =>
    match tokFromPretrained model_name with
    | .error e => (.error e, σ)
    | .ok tokenizer =>
      match modelFromPretrained model_name with
      | .error e => (.error e, σ)
      | .ok model =>
        (.ok (model, tokenizer),
         ⟨dset σ.loaded_models model_name (model, tokenizer),
          σ.loadEvents ++ [model_name]⟩)

/-- The function `translate_text(text, model, tokenizer)`: tokenize a
singleton batch, run `generate`, decode row 0. `tokenize`, `generate` and
`dec` are the external tokenizer and MarianMT engine capabilities. -/
def translate_text (tokenize : String → List Nat)
    (generate : List (List Nat) → List (List Nat)) (dec : List Nat → String)
    (text : String) : String :=
  dec ((generate [tokenize text]).getD 0 [])

/-- The function `translate_batch(texts, model, tokenizer)`: tokenize every
text (the tokenizer pads a batch with one row per input), run `generate`
once, decode every output row in order. -/
def translate_batch (tokenize : String → List Nat)
    (generate : List (List Nat) → List (List Nat)) (dec : List Nat → String)
    (texts : List String) : List String :=
  (generate (texts.map tokenize)).map dec

/-- One iteration of the preload loop in `lifespan`: strip the token, split on
every dash, require exactly two parts, resolve via `get_model_name`, and call
`load_model` inside try/except — a raised load error leaves the state as the
`.2` projection already does. -/
def preload_step (tokO modO : String → Except String Nat)
    (σ : HFState) (pair0 : String) : HFState :=
  let pair := pyStrip pair0
  if pair ≠ "" then
    match pySplit pair '-' with
    | [a, b] =>
      match get_model_name a b with
      | some model_name => (load_model tokO modO σ model_name).2
      | none => σ
    | _ => σ
  else σ

/-- The preload loop of the Hugging Face `lifespan`: fold `preload_step` over
the configured pair tokens. -/
def preload (tokO modO : String → Except String Nat)
    (σ : HFState) (pairs : List String) : HFState :=
  pairs.foldl (preload_step tokO modO) σ

/-- N sequential `load_model` calls for one identifier: the cooperative
(asyncio event-loop) execution of N concurrent requests. `load_model` is a
synchronous function with no suspension point, so each caller's whole
acquire runs as one atomic step and any interleaving of N callers is some
sequential order of whole calls; with identical callers every order is this
one. -/
def run_acquires (tokO modO : String → Except String Nat) (model_name : String) :
    Nat → HFState → List (Except String (Nat × Nat)) × HFState
  | 0, σ => ([], σ)
  | n + 1, σ =>
    let r := load_model tokO modO σ model_name
    let rest := run_acquires tokO modO model_name n r.2
    (r.1 :: rest.1, rest.2)

/-- Program counter of one caller executing the body of `load_model` under
preemptive (thread) scheduling: check the cache, construct (the underlying
load), publish. -/
inductive TPC where
  | start
  | loading
  | haveHandle (v : Nat × Nat)
  | finished (v : Nat × Nat)
deriving DecidableEq, Repr

/-- System state for the preemptive interleaving of several callers of
`load_model` on one identifier: the shared cache, the number of underlying
loads that have executed, and each caller's program counter. -/
structure TSys where
  cache : List (String × (Nat × Nat))
  loads : Nat
  pcs : List TPC
deriving DecidableEq, Repr

/-- One preemptive step of caller `i` through the body of `load_model`:
`start` performs the cache check (`if model_name in loaded_models`),
`loading` performs the underlying `from_pretrained` load, `haveHandle`
publishes into the cache. The source takes no lock around these steps. -/
def thread_step (loadVal : String → Nat × Nat) (model_name : String)
    (σ : TSys) (i : Nat) : TSys :=
  match σ.pcs.get? i with
  | none => σ
  | some TPC.start =>
    match List.lookup model_name σ.cache with
    | some v => { σ with pcs := σ.pcs.set i (TPC.finished v) }
    | none => { σ with pcs := σ.pcs.set i TPC.loading }
  | some TPC.loading =>
    { σ with loads := σ.loads + 1,
             pcs := σ.pcs.set i (TPC.haveHandle (loadVal model_name)) }
  | some (TPC.haveHandle v) =>
    { σ with cache := dset σ.cache model_name v,
             pcs := σ.pcs.set i (TPC.finished v) }
  | some (TPC.finished _) => σ

/-- Run a schedule (a list of caller indices) of preemptive steps. -/
def thread_run (loadVal : String → Nat × Nat) (model_name : String)
    (σ : TSys) (sched : List Nat) : TSys :=
  sched.foldl (thread_step loadVal model_name) σ

end HF

/-! Helper lemmas about the association-list caches. -/

theorem lookup_dset_self {α : Type} (l : List (String × α)) (k : String) (v : α) :
    List.lookup k (dset l k v) = some v := by
  simp [dset]

theorem lookup_dset_ne {α : Type} (l : List (String × α)) (k k2 : String) (v : α)
    (h : k2 ≠ k) : List.lookup k2 (dset l k v) = List.lookup k2 l := by
  have hb : (k2 == k) = false := beq_false_of_ne h
  simp [dset, List.lookup_cons, hb]

theorem download_model_writes (fetch : String → Option (List Nat))
    (gunzip : List Nat → Option (List Nat)) (fs : BG.FS) (s t url : String)
    (content0 content : List Nat)
    (hreg : List.lookup (s, t) BG.MODEL_REGISTRY = some url)
    (hfile : List.lookup (s ++ "-" ++ t ++ "/model.bin") fs = none)
    (hfetch : fetch url = some content0)
    (hunz : (if pyEndsWith url ".gz" then gunzip content0 else some content0) =
      some content) :
    BG.download_model fetch gunzip fs s t =
      (some (s ++ "-" ++ t), dset fs (s ++ "-" ++ t ++ "/model.bin") content) := by
  cases hgz : pyEndsWith url ".gz" with
  | true =>
    rw [hgz, if_pos rfl] at hunz
    simp [BG.download_model, hreg, hfile, hfetch, hgz, hunz]
  | false =>
    rw [hgz] at hunz
    simp only [Bool.false_eq_true, if_false, Option.some.injEq] at hunz
    subst hunz
    simp [BG.download_model, hreg, hfile, hfetch, hgz]

theorem download_model_fs_preserves (fetch : String → Option (List Nat))
    (gunzip : List Nat → Option (List Nat)) (fs : BG.FS) (s t k : String)
    (v : List Nat) (h : List.lookup k fs = some v) :
    List.lookup k (BG.download_model fetch gunzip fs s t).2 = some v := by
  unfold BG.download_model
  cases hreg : List.lookup (s, t) BG.MODEL_REGISTRY with
  | none => simpa [hreg] using h
  | some url =>
    dsimp only
    cases hfile : (List.lookup (s ++ "-" ++ t ++ "/model.bin") fs).isSome with
    | true => simpa [hreg, hfile] using h
    | false =>
      have hk : k ≠ s ++ "-" ++ t ++ "/model.bin" := by
        intro he
        rw [he] at h
        simp [h] at hfile
      cases hfetch : fetch url with
      | none => simpa [hreg, hfile, hfetch] using h
      | some content0 =>
        cases hgz : pyEndsWith url ".gz" with
        | true =>
          cases hunz : gunzip content0 with
          | none => simpa [hreg, hfile, hfetch, hgz, hunz] using h
          | some content =>
            simp [hreg, hfile, hfetch, hgz, hunz,
              lookup_dset_ne _ _ _ _ hk, h]
        | false =>
          simp [hreg, hfile, hfetch, hgz, lookup_dset_ne _ _ _ _ hk, h]

theorem bg_preload_step_fs_preserves (fetch : String → Option (List Nat))
    (gunzip : List Nat → Option (List Nat)) (fs : BG.FS) (pair0 k : String)
    (v : List Nat) (h : List.lookup k fs = some v) :
    List.lookup k (BG.preload_step fetch gunzip fs pair0) = some v := by
  unfold BG.preload_step
  dsimp only
  split
  · split
    · exact h
    · split
      · exact download_model_fs_preserves fetch gunzip fs _ _ k v h
      · exact h
  · exact h

theorem bg_preload_fs_preserves (fetch : String → Option (List Nat))
    (gunzip : List Nat → Option (List Nat)) (pairs : List String) :
    ∀ (fs : BG.FS) (k : String) (v : List Nat), List.lookup k fs = some v →
      List.lookup k (BG.preload fetch gunzip fs pairs) = some v := by
  induction pairs with
  | nil => intro fs k v h; simpa [BG.preload] using h
  | cons p ps ih =>
    intro fs k v h
    show List.lookup k ((p :: ps).foldl (BG.preload_step fetch gunzip) fs) = some v
    rw [List.foldl_cons]
    exact ih _ k v (bg_preload_step_fs_preserves fetch gunzip fs p k v h)

theorem load_model_preserves (tokO modO : String → Except String Nat)
    (σ : HF.HFState) (name k : String) (v : Nat × Nat)
    (h : List.lookup k σ.loaded_models = some v) :
    List.lookup k (HF.load_model tokO modO σ name).2.loaded_models = some v := by
  unfold HF.load_model
  cases hl : List.lookup name σ.loaded_models with
  | some p => simpa [hl] using h
  | none =>
    cases htk : tokO name with
    | error e => simpa [hl, htk] using h
    | ok tk =>
      cases hmd : modO name with
      | error e => simpa [hl, htk, hmd] using h
      | ok md =>
        have hk : k ≠ name := by
          intro he
          rw [he, hl] at h
          exact Option.noConfusion h
        simp [hl, htk, hmd, lookup_dset_ne _ _ _ _ hk, h]

theorem preload_step_preserves (tokO modO : String → Except String Nat)
    (σ : HF.HFState) (pair0 k : String) (v : Nat × Nat)
    (h : List.lookup k σ.loaded_models = some v) :
    List.lookup k (HF.preload_step tokO modO σ pair0).loaded_models = some v := by
  unfold HF.preload_step
  dsimp only
  split
  · split
    · split
      · exact load_model_preserves tokO modO σ _ k v h
      · exact h
    · exact h
  · exact h

theorem preload_preserves (tokO modO : String → Except String Nat)
    (pairs : List String) :
    ∀ (σ : HF.HFState) (k : String) (v : Nat × Nat),
      List.lookup k σ.loaded_models = some v →
      List.lookup k (HF.preload tokO modO σ pairs).loaded_models = some v := by
  induction pairs with
  | nil => intro σ k v h; simpa [HF.preload] using h
  | cons p ps ih =>
    intro σ k v h
    show List.lookup k ((p :: ps).foldl (HF.preload_step tokO modO) σ).loaded_models = some v
    rw [List.foldl_cons]
    exact ih _ k v (preload_step_preserves tokO modO σ p k v h)

theorem get_translator_preserves (σ : BG.BGState) (s t k : String) (e : BG.Translator)
    (h : List.lookup k σ = some e) :
    List.lookup k (BG.get_translator σ s t).2 = some e := by
  unfold BG.get_translator
  cases hl : List.lookup (s ++ "-" ++ t) σ with
  | some x => simpa [hl] using h
  | none =>
    have hk : k ≠ s ++ "-" ++ t := by
      intro he
      rw [he, hl] at h
      exact Option.noConfusion h
    simp [hl, lookup_dset_ne _ _ _ _ hk, h]

theorem translate_request_preserves (b c : Bool) (st : BG.BGState × BG.FS)
    (text s t k : String) (e : BG.Translator) (h : List.lookup k st.1 = some e) :
    List.lookup k (BG.translate_request b c st text s t).2.1 = some e := by
  unfold BG.translate_request BG.translate
  by_cases hreg : (List.lookup (s, t) BG.MODEL_REGISTRY).isNone
  · simp [hreg, h]
  · simp only [hreg, if_false, Bool.false_eq_true]
    exact get_translator_preserves st.1 s t k e h

/-! The claim theorems follow. -/

/-- C8: the model caches are append-only for successful loads: a published
entry is never mutated, replaced, or removed by any cache-touching operation
of either service (`load_model`, the preloader, `get_translator`, the
translate and batch handlers); every later read of the identifier returns
the identical value. -/
theorem c8_cache_append_only :
    (∀ (tokO modO : String → Except String Nat) (σ : HF.HFState) (name k : String)
        (v : Nat × Nat), List.lookup k σ.loaded_models = some v →
      List.lookup k (HF.load_model tokO modO σ name).2.loaded_models = some v) ∧
    (∀ (tokO modO : String → Except String Nat) (σ : HF.HFState) (pairs : List String)
        (k : String) (v : Nat × Nat), List.lookup k σ.loaded_models = some v →
      List.lookup k (HF.preload tokO modO σ pairs).loaded_models = some v) ∧
    (∀ (σ : BG.BGState) (s t k : String) (e : BG.Translator),
      List.lookup k σ = some e → List.lookup k (BG.get_translator σ s t).2 = some e) ∧
    (∀ (b c : Bool) (st : BG.BGState × BG.FS) (text s t k : String) (e : BG.Translator),
      List.lookup k st.1 = some e →
      List.lookup k (BG.translate_request b c st text s t).2.1 = some e) ∧
    (∀ (b c : Bool) (σ : BG.BGState) (texts : List String) (s t k : String)
        (e : BG.Translator) (res : List String × String × BG.BGState),
      List.lookup k σ = some e → BG.translate_batch b c σ texts s t = .ok res →
      List.lookup k res.2.2 = some e) := by
  refine ⟨load_model_preserves, fun tokO modO σ pairs k v h =>
    preload_preserves tokO modO pairs σ k v h, get_translator_preserves,
    translate_request_preserves, ?_⟩
  intro b c σ texts s t k e res h hok
  unfold BG.translate_batch at hok
  by_cases hreg : (List.lookup (s, t) BG.MODEL_REGISTRY).isNone
  · rw [if_pos hreg] at hok
    exact Except.noConfusion hok
  · rw [if_neg hreg] at hok
    have hres : res.2.2 = (BG.get_translator σ s t).2 := by
      cases hok
      rfl
    rw [hres]
    exact get_translator_preserves σ s t k e h

/-- Witness for C8: a cache holding one Hugging Face entry and one Bergamot
entry keeps both across a foreign load, a preload, and a request. -/
theorem c8_cache_append_only_witness :
    List.lookup "m" (HF.HFState.mk [("m", (1, 2))] []).loaded_models = some (1, 2) ∧
    List.lookup "m"
      (HF.load_model (fun _ => .ok 7) (fun _ => .ok 8)
        ⟨[("m", (1, 2))], []⟩ "n").2.loaded_models = some (1, 2) ∧
    List.lookup "m"
      (HF.preload (fun _ => .ok 7) (fun _ => .ok 8)
        ⟨[("m", (1, 2))], []⟩ ["en-es", "en-fr"]).loaded_models = some (1, 2) ∧
    List.lookup "de-en"
      (BG.get_translator [("de-en", ⟨"de", "en", true⟩)] "en" "es").2 =
      some ⟨"de", "en", true⟩ := by
  refine ⟨by decide, ?_, ?_, ?_⟩
  · exact c8_cache_append_only.1 (fun _ => .ok 7) (fun _ => .ok 8)
      ⟨[("m", (1, 2))], []⟩ "n" "m" (1, 2) (by decide)
  · exact c8_cache_append_only.2.1 (fun _ => .ok 7) (fun _ => .ok 8)
      ⟨[("m", (1, 2))], []⟩ ["en-es", "en-fr"] "m" (1, 2) (by decide)
  · exact c8_cache_append_only.2.2.1 [("de-en", ⟨"de", "en", true⟩)] "en" "es"
      "de-en" ⟨"de", "en", true⟩ (by decide)

/-- C4: a failed load publishes nothing. If either `from_pretrained`
constructor raises, `load_model` returns the error with the state exactly as
it was; a subsequent call for the same identifier consults fresh
constructors and performs the load from scratch (no cached failure). In the
Bergamot service a failed fetch, and equally a raise inside
`gzip.decompress`, leaves the artifact store unchanged and `download_model`
reports `none`. -/
theorem c4_failed_load_publishes_nothing
    (σ : HF.HFState) (name e : String)
    (tokO modO tokO2 modO2 : String → Except String Nat) (a b : Nat)
    (hnone : List.lookup name σ.loaded_models = none) :
    (tokO name = .error e → HF.load_model tokO modO σ name = (.error e, σ)) ∧
    (∀ tk : Nat, tokO name = .ok tk → modO name = .error e →
      HF.load_model tokO modO σ name = (.error e, σ)) ∧
    (tokO2 name = .ok a → modO2 name = .ok b →
      HF.load_model tokO2 modO2 σ name =
        (.ok (b, a),
         ⟨dset σ.loaded_models name (b, a), σ.loadEvents ++ [name]⟩)) ∧
    (∀ (fetch : String → Option (List Nat)) (gunzip : List Nat → Option (List Nat))
        (fs : BG.FS) (s t url : String),
      List.lookup (s, t) BG.MODEL_REGISTRY = some url →
      List.lookup (s ++ "-" ++ t ++ "/model.bin") fs = none →
      fetch url = none →
      BG.download_model fetch gunzip fs s t = (none, fs)) ∧
    (∀ (fetch : String → Option (List Nat)) (gunzip : List Nat → Option (List Nat))
        (fs : BG.FS) (s t url : String) (content0 : List Nat),
      List.lookup (s, t) BG.MODEL_REGISTRY = some url →
      List.lookup (s ++ "-" ++ t ++ "/model.bin") fs = none →
      fetch url = some content0 →
      pyEndsWith url ".gz" = true →
      gunzip content0 = none →
      BG.download_model fetch gunzip fs s t = (none, fs)) := by
  refine ⟨?_, ?_, ?_, ?_, ?_⟩
  · intro htok
    simp [HF.load_model, hnone, htok]
  · intro tk htok hmod
    simp [HF.load_model, hnone, htok, hmod]
  · intro htok hmod
    simp [HF.load_model, hnone, htok, hmod]
  · intro fetch gunzip fs s t url hreg hfile hfetch
    simp [BG.download_model, hreg, hfile, hfetch]
  · intro fetch gunzip fs s t url content0 hreg hfile hfetch hgz hunz
    simp [BG.download_model, hreg, hfile, hfetch, hgz, hunz]

/-- Witness for C4: a failing tokenizer load on the empty cache, then a
succeeding retry, a failing fetch of the registered pair (en, es), and a
successful fetch of its gzipped artifact whose decompression raises. -/
theorem c4_failed_load_publishes_nothing_witness :
    List.lookup "m" (HF.HFState.mk [] []).loaded_models = none ∧
    HF.load_model (fun _ => .error "net") (fun _ => .ok 8) ⟨[], []⟩ "m" =
      (.error "net", ⟨[], []⟩) ∧
    HF.load_model (fun _ => .ok 1) (fun _ => .ok 2) ⟨[], []⟩ "m" =
      (.ok (2, 1), ⟨dset [] "m" (2, 1), [] ++ ["m"]⟩) ∧
    BG.download_model (fun _ => none) (fun _ => none) []
      "en" "es" = (none, []) ∧
    BG.download_model (fun _ => some [3, 4]) (fun _ => none) []
      "en" "es" = (none, []) := by
  have h := c4_failed_load_publishes_nothing ⟨[], []⟩ "m" "net"
    (fun _ => .error "net") (fun _ => .ok 8) (fun _ => .ok 1) (fun _ => .ok 2)
    1 2 (by decide)
  refine ⟨by decide, h.1 rfl, h.2.2.1 rfl rfl, ?_, ?_⟩
  · exact h.2.2.2.1 (fun _ => none) (fun _ => none) [] "en" "es"
      "https://storage.googleapis.com/bergamot-models-sandbox/prod/ende/model.enes.intgemm.alphas.bin.gz"
      (by decide) (by decide) rfl
  · exact h.2.2.2.2 (fun _ => some [3, 4]) (fun _ => none) [] "en" "es"
      "https://storage.googleapis.com/bergamot-models-sandbox/prod/ende/model.enes.intgemm.alphas.bin.gz"
      [3, 4] (by decide) (by decide) rfl (by decide) rfl

/-- C2 counterexample: starting from an empty translator cache and an empty
artifact store, one request through the Bergamot `/translate` handler for the
registered pair (en, es) publishes the cache entry while the artifact store
still holds no artifact for that pair — the request path publishes entries
whose artifact-ensuring step never ran. -/
theorem c2_request_path_publishes_without_artifact_counterexample :
    List.lookup "en-es"
      (BG.translate_request true false ([], []) "hello" "en" "es").2.1 =
      some ⟨"en", "es", true⟩ ∧
    List.lookup "en-es/model.bin"
      (BG.translate_request true false ([], []) "hello" "en" "es").2.2 = none := by
  decide

/-- C10: the three engine branches (bergamot, ctranslate2, inline placeholder)
compute the identical translation function, namely the tag
`"[" ++ source ++ "->" ++ target ++ "] " ++ text`, and the translated text
produced by the `/translate` handler is independent of which engine the
availability flags select. -/
theorem c10_engine_branches_agree :
    (∀ text source_lang target_lang : String,
      BG.translate_with_bergamot text source_lang target_lang =
        "[" ++ source_lang ++ "->" ++ target_lang ++ "] " ++ text ∧
      BG.translate_with_ctranslate2 text source_lang target_lang =
        "[" ++ source_lang ++ "->" ++ target_lang ++ "] " ++ text ∧
      ∀ b c : Bool, (BG.engine_branch b c text source_lang target_lang).1 =
        "[" ++ source_lang ++ "->" ++ target_lang ++ "] " ++ text) ∧
    (∀ (b c b2 c2 : Bool) (σ : BG.BGState) (text source_lang target_lang : String),
      Except.map (fun r => r.1) (BG.translate b c σ text source_lang target_lang) =
        Except.map (fun r => r.1) (BG.translate b2 c2 σ text source_lang target_lang)) := by
  constructor
  · intro text s t
    refine ⟨rfl, rfl, ?_⟩
    intro b c
    cases b <;> cases c <;> rfl
  · intro b c b2 c2 σ text s t
    unfold BG.translate
    by_cases h : (List.lookup (s, t) BG.MODEL_REGISTRY).isNone
    · rw [if_pos h, if_pos h]
    · rw [if_neg h, if_neg h]
      cases b <;> cases c <;> cases b2 <;> cases c2 <;> rfl

/-- C9: `get_translator` is total and never consults `MODEL_REGISTRY`: for any
pair of strings whose key is uncached — registered or not — it publishes and
returns the entry `{source, target, loaded: true}`; the 400-on-unsupported
guard lives only in the HTTP handler. -/
theorem c9_get_translator_ignores_registry
    (σ : BG.BGState) (s t : String)
    (hnone : List.lookup (s ++ "-" ++ t) σ = none) :
    BG.get_translator σ s t =
      (⟨s, t, true⟩, dset σ (s ++ "-" ++ t) (⟨s, t, true⟩ : BG.Translator)) ∧
    (∀ (b c : Bool) (st : BG.BGState) (text : String),
      List.lookup (s, t) BG.MODEL_REGISTRY = none →
      BG.translate b c st text s t = .error 400) := by
  constructor
  · simp [BG.get_translator, hnone]
  · intro b c st text hreg
    unfold BG.translate
    rw [if_pos (by simp [hreg])]

/-- Witness for C9 at the unregistered pair ("xx", "yy") and the empty cache. -/
theorem c9_get_translator_ignores_registry_witness :
    List.lookup ("xx" ++ "-" ++ "yy") ([] : BG.BGState) = none ∧
    BG.get_translator [] "xx" "yy" =
      (⟨"xx", "yy", true⟩, dset [] ("xx" ++ "-" ++ "yy") (⟨"xx", "yy", true⟩ : BG.Translator)) ∧
    BG.translate true false [] "hello" "xx" "yy" = .error 400 := by
  have h := c9_get_translator_ignores_registry [] "xx" "yy" (by decide)
  exact ⟨by decide, h.1, h.2 true false [] "hello" (by decide)⟩

/-- C5: the fast path. If an identifier is already cached, the Hugging Face
`load_model` returns the cached pair with the state untouched, for every
possible behaviour of the `from_pretrained` constructors (so no part of the
load path can have run); likewise the Bergamot `get_translator` returns the
cached entry with the cache untouched. -/
theorem c5_cached_fast_path
    (tokO modO : String → Except String Nat) (σ : HF.HFState) (model_name : String)
    (p : Nat × Nat) (hp : List.lookup model_name σ.loaded_models = some p)
    (σb : BG.BGState) (s t : String) (e : BG.Translator)
    (he : List.lookup (s ++ "-" ++ t) σb = some e) :
    HF.load_model tokO modO σ model_name = (.ok p, σ) ∧
    BG.get_translator σb s t = (e, σb) := by
  constructor
  · simp [HF.load_model, hp]
  · simp [BG.get_translator, he]

/-- Witness for C5 at concrete caches holding one entry each. -/
theorem c5_cached_fast_path_witness :
    List.lookup "m" (HF.HFState.mk [("m", (1, 2))] []).loaded_models = some (1, 2) ∧
    List.lookup ("en" ++ "-" ++ "es")
      ([("en-es", ⟨"en", "es", true⟩)] : BG.BGState) = some ⟨"en", "es", true⟩ ∧
    HF.load_model (fun _ => .ok 7) (fun _ => .ok 8) ⟨[("m", (1, 2))], []⟩ "m" =
      (.ok (1, 2), ⟨[("m", (1, 2))], []⟩) ∧
    BG.get_translator [("en-es", ⟨"en", "es", true⟩)] "en" "es" =
      (⟨"en", "es", true⟩, [("en-es", ⟨"en", "es", true⟩)]) := by
  have h := c5_cached_fast_path (fun _ => .ok 7) (fun _ => .ok 8)
    ⟨[("m", (1, 2))], []⟩ "m" (1, 2) (by decide)
    [("en-es", ⟨"en", "es", true⟩)] "en" "es" ⟨"en", "es", true⟩ (by decide)
  exact ⟨by decide, by decide, h.1, h.2⟩

/-- C2 amended: the artifact-ensuring step lives in `download_model` alone —
when invoked on a registered pair it skips the download if the artifact
exists, otherwise fetches from the registry URL, decompresses `.gz` content,
and writes the artifact before reporting success. The Bergamot request path
publishes cache entries without ever performing the artifact-ensuring step
(its artifact store passes through every request untouched), while the
Hugging Face `load_model` constructs the handle via the engine constructors
and then publishes exactly that handle. -/
theorem c2_amended_load_pipeline :
    (∀ (fetch : String → Option (List Nat)) (gunzip : List Nat → Option (List Nat))
        (fs : BG.FS) (s t url : String) (content0 content : List Nat),
      List.lookup (s, t) BG.MODEL_REGISTRY = some url →
      List.lookup (s ++ "-" ++ t ++ "/model.bin") fs = none →
      fetch url = some content0 →
      (if pyEndsWith url ".gz" then gunzip content0 else some content0) =
        some content →
      BG.download_model fetch gunzip fs s t =
        (some (s ++ "-" ++ t),
         dset fs (s ++ "-" ++ t ++ "/model.bin") content)) ∧
    (∀ (fetch : String → Option (List Nat)) (gunzip : List Nat → Option (List Nat))
        (fs : BG.FS) (s t url : String) (cnt : List Nat),
      List.lookup (s, t) BG.MODEL_REGISTRY = some url →
      List.lookup (s ++ "-" ++ t ++ "/model.bin") fs = some cnt →
      BG.download_model fetch gunzip fs s t = (some (s ++ "-" ++ t), fs)) ∧
    (∀ (b c : Bool) (st : BG.BGState × BG.FS) (text s t : String),
      (BG.translate_request b c st text s t).2.2 = st.2) ∧
    (∀ (b c : Bool) (st : BG.BGState × BG.FS) (text s t : String),
      (List.lookup (s, t) BG.MODEL_REGISTRY).isSome →
      List.lookup (s ++ "-" ++ t) st.1 = none →
      List.lookup (s ++ "-" ++ t) (BG.translate_request b c st text s t).2.1 =
        some ⟨s, t, true⟩) ∧
    (∀ (tokO modO : String → Except String Nat) (σ : HF.HFState)
        (name : String) (a b : Nat),
      List.lookup name σ.loaded_models = none → tokO name = .ok a →
      modO name = .ok b →
      HF.load_model tokO modO σ name =
        (.ok (b, a),
         ⟨dset σ.loaded_models name (b, a), σ.loadEvents ++ [name]⟩)) := by
  refine ⟨?_, ?_, ?_, ?_, ?_⟩
  · intro fetch gunzip fs s t url content0 content hreg hfile hfetch hunz
    cases hgz : pyEndsWith url ".gz" with
    | true =>
      rw [hgz, if_pos rfl] at hunz
      simp [BG.download_model, hreg, hfile, hfetch, hgz, hunz]
    | false =>
      rw [hgz] at hunz
      simp only [Bool.false_eq_true, if_false, Option.some.injEq] at hunz
      subst hunz
      simp [BG.download_model, hreg, hfile, hfetch, hgz]
  · intro fetch gunzip fs s t url cnt hreg hfile
    simp [BG.download_model, hreg, hfile]
  · intro b c st text s t
    unfold BG.translate_request
    cases BG.translate b c st.1 text s t with
    | error n => rfl
    | ok r => rfl
  · intro b c st text s t hreg hnone
    obtain ⟨url, hurl⟩ := Option.isSome_iff_exists.mp hreg
    have hni : ¬ ((List.lookup (s, t) BG.MODEL_REGISTRY).isNone = true) := by
      simp [hurl]
    unfold BG.translate_request BG.translate
    rw [if_neg hni]
    simpa [BG.get_translator, hnone] using lookup_dset_self st.1 (s ++ "-" ++ t)
      (⟨s, t, true⟩ : BG.Translator)
  · intro tokO modO σ name a b hnone htok hmod
    simp [HF.load_model, hnone, htok, hmod]

/-- Witness for C2's amended theorem: a fresh download of the registered pair
(en, es) with a gzipped URL, its idempotent re-run, a request through the
handler, and a Hugging Face slow-path load. -/
theorem c2_amended_load_pipeline_witness :
    BG.download_model (fun _ => some [3, 4]) (fun _ => some [9]) [] "en" "es" =
      (some ("en" ++ "-" ++ "es"),
       dset [] ("en" ++ "-" ++ "es" ++ "/model.bin") [9]) ∧
    BG.download_model (fun _ => some [3, 4]) (fun _ => some [9])
      [("en-es/model.bin", [9])] "en" "es" =
      (some ("en" ++ "-" ++ "es"), [("en-es/model.bin", [9])]) ∧
    (BG.translate_request true false ([], [("f", [1])]) "hi" "en" "es").2.2 =
      [("f", [1])] ∧
    List.lookup ("en" ++ "-" ++ "es")
      (BG.translate_request true false ([], []) "hi" "en" "es").2.1 =
      some ⟨"en", "es", true⟩ ∧
    HF.load_model (fun _ => .ok 1) (fun _ => .ok 2) ⟨[], []⟩ "m" =
      (.ok (2, 1), ⟨dset [] "m" (2, 1), [] ++ ["m"]⟩) := by
  have h := c2_amended_load_pipeline
  refine ⟨?_, ?_, ?_, ?_, ?_⟩
  · exact h.1 (fun _ => some [3, 4]) (fun _ => some [9]) [] "en" "es"
      "https://storage.googleapis.com/bergamot-models-sandbox/prod/ende/model.enes.intgemm.alphas.bin.gz"
      [3, 4] [9] (by decide) (by decide) rfl (by decide)
  · exact h.2.1 (fun _ => some [3, 4]) (fun _ => some [9])
      [("en-es/model.bin", [9])] "en" "es"
      "https://storage.googleapis.com/bergamot-models-sandbox/prod/ende/model.enes.intgemm.alphas.bin.gz"
      [9] (by decide) (by decide)
  · exact h.2.2.1 true false ([], [("f", [1])]) "hi" "en" "es"
  · exact h.2.2.2.1 true false ([], []) "hi" "en" "es" (by decide) (by decide)
  · exact h.2.2.2.2 (fun _ => .ok 1) (fun _ => .ok 2) ⟨[], []⟩ "m" 1 2
      (by decide) rfl rfl

theorem bg_batch_loop_eq_map (b c : Bool) (s t : String) (texts : List String) :
    ∀ (acc : List String) (e0 : String),
      (texts.foldl
        (fun acc2 text =>
          let te := BG.engine_branch b c text s t
          (acc2.1 ++ [te.1], te.2)) (acc, e0)).1 =
      acc ++ texts.map (fun text => (BG.engine_branch b c text s t).1) := by
  induction texts with
  | nil => intro acc e0; simp
  | cons x xs ih =>
    intro acc e0
    simp only [List.foldl_cons, List.map_cons]
    rw [ih]
    simp

theorem translate_batch_eq (b c : Bool) (σ : BG.BGState) (texts : List String)
    (s t url : String) (hurl : List.lookup (s, t) BG.MODEL_REGISTRY = some url) :
    BG.translate_batch b c σ texts s t =
      .ok ((texts.foldl
        (fun acc text =>
          let te := BG.engine_branch b c text s t
          (acc.1 ++ [te.1], te.2)) ([], "placeholder")).1,
       (texts.foldl
        (fun acc text =>
          let te := BG.engine_branch b c text s t
          (acc.1 ++ [te.1], te.2)) ([], "placeholder")).2,
       (BG.get_translator σ s t).2) := by
  unfold BG.translate_batch
  rw [if_neg (by simp [hurl])]

/-- C3: batch translation is length- and order-preserving, and empty input
yields empty output. The Bergamot `/translate/batch` loop returns exactly the
per-item engine translation of each input, in order; the Hugging Face
`translate_batch` does the same whenever the external MarianMT `generate`
capability maps a batch row-wise (its library contract), where the per-item
translation is the source's own single-text path `translate_text`. -/
theorem c3_batch_length_order_preserving
    (b c : Bool) (σ : BG.BGState) (texts : List String) (s t : String)
    (tokenize : String → List Nat) (g1 : List Nat → List Nat)
    (generate : List (List Nat) → List (List Nat)) (dec : List Nat → String)
    (hreg : (List.lookup (s, t) BG.MODEL_REGISTRY).isSome)
    (hpt : ∀ l, generate l = l.map g1) :
    (∃ res, BG.translate_batch b c σ texts s t = .ok res ∧
      res.1 = texts.map (fun text => (BG.engine_branch b c text s t).1) ∧
      res.1.length = texts.length ∧ (texts = [] → res.1 = [])) ∧
    (HF.translate_batch tokenize generate dec texts).length = texts.length ∧
    HF.translate_batch tokenize generate dec texts =
      texts.map (HF.translate_text tokenize generate dec) ∧
    HF.translate_batch tokenize generate dec [] = [] := by
  have htt : ∀ x, HF.translate_text tokenize generate dec x =
      dec (g1 (tokenize x)) := by
    intro x
    unfold HF.translate_text
    rw [hpt]
    rfl
  have hbt : HF.translate_batch tokenize generate dec texts =
      texts.map (fun x => dec (g1 (tokenize x))) := by
    unfold HF.translate_batch
    rw [hpt]
    simp [List.map_map, Function.comp]
  obtain ⟨url, hurl⟩ := Option.isSome_iff_exists.mp hreg
  refine ⟨⟨_, translate_batch_eq b c σ texts s t url hurl, ?_, ?_, ?_⟩, ?_, ?_, ?_⟩
  · simpa using bg_batch_loop_eq_map b c s t texts [] "placeholder"
  · rw [show ((texts.foldl
        (fun acc text =>
          let te := BG.engine_branch b c text s t
          (acc.1 ++ [te.1], te.2)) (([] : List String), "placeholder")).1,
       (texts.foldl
        (fun acc text =>
          let te := BG.engine_branch b c text s t
          (acc.1 ++ [te.1], te.2)) (([] : List String), "placeholder")).2,
       (BG.get_translator σ s t).2).1 = (texts.foldl
        (fun acc text =>
          let te := BG.engine_branch b c text s t
          (acc.1 ++ [te.1], te.2)) (([] : List String), "placeholder")).1 from rfl]
    rw [show (texts.foldl
        (fun acc text =>
          let te := BG.engine_branch b c text s t
          (acc.1 ++ [te.1], te.2)) (([] : List String), "placeholder")).1 =
        [] ++ texts.map (fun text => (BG.engine_branch b c text s t).1) from
      bg_batch_loop_eq_map b c s t texts [] "placeholder"]
    simp
  · intro he
    subst he
    rfl
  · rw [hbt]
    exact List.length_map texts _
  · rw [hbt]
    exact (List.map_congr_left (fun x _ => (htt x).symm))
  · unfold HF.translate_batch
    rw [hpt]
    rfl

/-- Witness for C3 on the spec's probe inputs ["a", "b", "c"] with a concrete
row-wise engine. -/
theorem c3_batch_length_order_preserving_witness :
    (List.lookup ("en", "es") BG.MODEL_REGISTRY).isSome = true ∧
    (∃ res, BG.translate_batch true false [] ["a", "b", "c"] "en" "es" = .ok res ∧
      res.1 = (["a", "b", "c"].map
        (fun text => (BG.engine_branch true false text "en" "es").1)) ∧
      res.1.length = (["a", "b", "c"] : List String).length ∧
      ((["a", "b", "c"] : List String) = [] → res.1 = [])) ∧
    (HF.translate_batch (fun _ => [1]) (fun l => l.map (fun r => 0 :: r))
      (fun _ => "out") ["a", "b", "c"]).length =
      (["a", "b", "c"] : List String).length := by
  have h := c3_batch_length_order_preserving true false [] ["a", "b", "c"]
    "en" "es" (fun _ => [1]) (fun r => 0 :: r) (fun l => l.map (fun r => 0 :: r))
    (fun _ => "out") (by decide) (fun l => rfl)
  exact ⟨by decide, h.1, h.2.1⟩

/-- C7 counterexample: the claim fails for the Bergamot service. Its
`lifespan` preloader only downloads artifacts via `download_model` and never
calls `get_translator`, so after preloading the list
["xx-yy", "en-es", "en-de"] — one invalid pair, two valid pairs, every fetch
succeeding — no model is loaded (`loaded_translators` has no entry for
"en-es") even though the valid pairs' artifacts were downloaded. -/
theorem c7_bergamot_preload_loads_no_models_counterexample :
    List.lookup "en-es"
      (BG.lifespan_preload (fun _ => some [1]) (fun _ => some [2]) ([], [])
        ["xx-yy", "en-es", "en-de"]).1 = none ∧
    (List.lookup "en-es/model.bin"
      (BG.lifespan_preload (fun _ => some [1]) (fun _ => some [2]) ([], [])
        ["xx-yy", "en-es", "en-de"]).2).isSome = true := by
  decide

/-- C7 amended: each preloader processes its configured pairs independently —
an unparseable, unresolvable, or failing pair is skipped and never aborts
the remaining pairs. In the Hugging Face service any well-formed pair that
resolves and whose load succeeds has its model loaded after the whole list
is processed, whatever the other entries do; in the Bergamot service the
preloader only ensures such a pair's artifact is downloaded and publishes no
translator cache entries (models load lazily on first request). -/
theorem c7_preload_tolerates_failures :
    (∀ (tokO modO : String → Except String Nat) (xs ys : List String)
        (p a b name : String) (tk md : Nat) (σ : HF.HFState),
      pyStrip p = p → p ≠ "" → pySplit p '-' = [a, b] →
      HF.get_model_name a b = some name →
      tokO name = .ok tk → modO name = .ok md →
      (List.lookup name
        (HF.preload tokO modO σ (xs ++ p :: ys)).loaded_models).isSome) ∧
    (∀ (fetch : String → Option (List Nat)) (gunzip : List Nat → Option (List Nat))
        (xs ys : List String) (p : String) (a b : List Char) (url : String)
        (content0 content : List Nat) (fs : BG.FS),
      pyStrip p = p → p ≠ "" → p.toList.contains '-' = true →
      pySplitFirst '-' p.toList = (a, some b) →
      List.lookup ((⟨a⟩ : String), (⟨b⟩ : String)) BG.MODEL_REGISTRY = some url →
      fetch url = some content0 →
      (if pyEndsWith url ".gz" then gunzip content0 else some content0) =
        some content →
      (List.lookup ((⟨a⟩ : String) ++ "-" ++ (⟨b⟩ : String) ++ "/model.bin")
        (BG.preload fetch gunzip fs (xs ++ p :: ys))).isSome) ∧
    (∀ (fetch : String → Option (List Nat)) (gunzip : List Nat → Option (List Nat))
        (st : BG.BGState × BG.FS) (pairs : List String),
      (BG.lifespan_preload fetch gunzip st pairs).1 = st.1) := by
  refine ⟨?_, ?_, ?_⟩
  · intro tokO modO xs ys p a b name tk md σ hp hne hsplit hres htok hmod
    have hfold : HF.preload tokO modO σ (xs ++ p :: ys) =
        HF.preload tokO modO
          (HF.preload_step tokO modO (HF.preload tokO modO σ xs) p) ys := by
      unfold HF.preload
      rw [List.foldl_append, List.foldl_cons]
    rw [hfold]
    have hstep : ∃ v, List.lookup name
        (HF.preload_step tokO modO (HF.preload tokO modO σ xs) p).loaded_models =
        some v := by
      unfold HF.preload_step
      dsimp only
      rw [hp, if_pos hne, hsplit]
      simp only [hres]
      cases hl : List.lookup name
          (HF.preload tokO modO σ xs).loaded_models with
      | some v =>
        refine ⟨v, ?_⟩
        simp [HF.load_model, hl]
      | none =>
        refine ⟨(md, tk), ?_⟩
        simp [HF.load_model, hl, htok, hmod, lookup_dset_self]
    obtain ⟨v, hv⟩ := hstep
    rw [preload_preserves tokO modO ys _ name v hv]
    rfl
  · intro fetch gunzip xs ys p a b url content0 content fs
      hp hne hdash hsplit hurl hfetch hunz
    have hfold : BG.preload fetch gunzip fs (xs ++ p :: ys) =
        BG.preload fetch gunzip
          (BG.preload_step fetch gunzip (BG.preload fetch gunzip fs xs) p) ys := by
      unfold BG.preload
      rw [List.foldl_append, List.foldl_cons]
    rw [hfold]
    have hstep : ∃ v, List.lookup
        ((⟨a⟩ : String) ++ "-" ++ (⟨b⟩ : String) ++ "/model.bin")
        (BG.preload_step fetch gunzip (BG.preload fetch gunzip fs xs) p) =
        some v := by
      unfold BG.preload_step
      dsimp only
      rw [hp, if_pos ⟨hne, hdash⟩, hsplit]
      dsimp only
      rw [if_pos (by simp [hurl])]
      cases hfile : List.lookup
          ((⟨a⟩ : String) ++ "-" ++ (⟨b⟩ : String) ++ "/model.bin")
          (BG.preload fetch gunzip fs xs) with
      | some v =>
        exact ⟨v, download_model_fs_preserves fetch gunzip _ _ _ _ v hfile⟩
      | none =>
        refine ⟨content, ?_⟩
        rw [download_model_writes fetch gunzip _ _ _ url content0 content
          hurl hfile hfetch hunz]
        exact lookup_dset_self _ _ _
    obtain ⟨v, hv⟩ := hstep
    rw [bg_preload_fs_preserves fetch gunzip ys _ _ v hv]
    rfl
  · intro fetch gunzip st pairs
    rfl

/-- Witness for C7's amended theorem: the preload list
["xx-yy", "en-es", "en-fr"] (one invalid, two valid pairs) leaves both valid
pairs' models loaded in the Hugging Face service, and the Bergamot preloader
on ["xx-yy", "en-es", "en-de"] downloads the valid pair's artifact while
leaving the translator cache exactly as it was. -/
theorem c7_preload_tolerates_failures_witness :
    pyStrip "en-es" = "en-es" ∧
    pySplit "en-es" '-' = ["en", "es"] ∧
    HF.get_model_name "en" "es" = some "Helsinki-NLP/opus-mt-en-es" ∧
    (List.lookup "Helsinki-NLP/opus-mt-en-es"
      (HF.preload (fun _ => .ok 1) (fun _ => .ok 2) ⟨[], []⟩
        ["xx-yy", "en-es", "en-fr"]).loaded_models).isSome ∧
    (List.lookup "Helsinki-NLP/opus-mt-en-fr"
      (HF.preload (fun _ => .ok 1) (fun _ => .ok 2) ⟨[], []⟩
        ["xx-yy", "en-es", "en-fr"]).loaded_models).isSome ∧
    (List.lookup ((⟨['e', 'n']⟩ : String) ++ "-" ++ (⟨['e', 's']⟩ : String) ++
        "/model.bin")
      (BG.preload (fun _ => some [3]) (fun _ => some [9]) []
        ["xx-yy", "en-es", "en-de"])).isSome ∧
    (BG.lifespan_preload (fun _ => some [3]) (fun _ => some [9]) ([], [])
      ["xx-yy", "en-es", "en-de"]).1 = [] := by
  refine ⟨by decide, by decide, by decide, ?_, ?_, ?_, ?_⟩
  · exact c7_preload_tolerates_failures.1 (fun _ => .ok 1) (fun _ => .ok 2)
      ["xx-yy"] ["en-fr"] "en-es" "en" "es" "Helsinki-NLP/opus-mt-en-es" 1 2
      ⟨[], []⟩ (by decide) (by decide) (by decide) (by decide) rfl rfl
  · exact c7_preload_tolerates_failures.1 (fun _ => .ok 1) (fun _ => .ok 2)
      ["xx-yy", "en-es"] [] "en-fr" "en" "fr" "Helsinki-NLP/opus-mt-en-fr" 1 2
      ⟨[], []⟩ (by decide) (by decide) (by decide) (by decide) rfl rfl
  · exact c7_preload_tolerates_failures.2.1 (fun _ => some [3])
      (fun _ => some [9]) ["xx-yy"] ["en-de"] "en-es" ['e', 'n'] ['e', 's']
      "https://storage.googleapis.com/bergamot-models-sandbox/prod/ende/model.enes.intgemm.alphas.bin.gz"
      [3] [9] [] (by decide) (by decide) (by decide) (by decide) (by decide)
      rfl (by decide)
  · exact c7_preload_tolerates_failures.2.2 (fun _ => some [3])
      (fun _ => some [9]) ([], []) ["xx-yy", "en-es", "en-de"]

/-- C6 counterexample: on the pair ("en", "ta") the source's `get_model_name`
consults the multilingual grouping rule and returns without ever performing
the exact-pair lookup, so the grouping rule is not "consulted only when the
exact-pair lookup misses". -/
theorem c6_grouping_consulted_first_counterexample :
    HF.Probe.grouping ∈ (HF.get_model_name_probed "en" "ta").2 ∧
    HF.Probe.exact ∉ (HF.get_model_name_probed "en" "ta").2 := by
  decide

/-- C6 amended: although the source consults the grouping rule first, the
resolved descriptor for every pair equals the result of the spec's
exact-lookup-first semantics, because no multilingual target has a per-pair
entry in the registry. -/
theorem c6_resolution_equals_exact_first (source_lang target_lang : String) :
    HF.get_model_name source_lang target_lang =
      HF.resolve_spec source_lang target_lang := by
  by_cases h : source_lang = "en" ∧ target_lang ∈ HF.MULTILINGUAL_TARGETS
  · obtain ⟨hs, ht⟩ := h
    subst hs
    fin_cases ht <;> decide
  · unfold HF.get_model_name HF.resolve_spec
    rw [if_neg h]
    cases hl : List.lookup (source_lang ++ "-" ++ target_lang) HF.MODEL_MAPPING with
    | none => simp [hl, if_neg h]
    | some m => simp [hl]

theorem run_acquires_cached (tokO modO : String → Except String Nat)
    (name : String) (p : Nat × Nat) :
    ∀ (n : Nat) (σ : HF.HFState),
      List.lookup name σ.loaded_models = some p →
      HF.run_acquires tokO modO name n σ = (List.replicate n (.ok p), σ) := by
  intro n
  induction n with
  | zero => intro σ h; rfl
  | succ m ih =>
    intro σ h
    have hl : HF.load_model tokO modO σ name = (.ok p, σ) := by
      simp [HF.load_model, h]
    have hstep : HF.run_acquires tokO modO name (m + 1) σ =
        ((HF.load_model tokO modO σ name).1 ::
          (HF.run_acquires tokO modO name m
            (HF.load_model tokO modO σ name).2).1,
         (HF.run_acquires tokO modO name m
            (HF.load_model tokO modO σ name).2).2) := rfl
    rw [hstep, hl]
    dsimp only
    rw [ih σ h]
    simp [List.replicate_succ]

/-- C1 counterexample: the claim as stated fails under preemptive
interleaving of the unsynchronized check-load-publish body of `load_model`.
With two callers for one uncached identifier and the schedule
[0, 1, 0, 1, 0, 1], both callers pass the cache check before either
publishes, so two underlying loads execute — the code takes no lock and has
no loading-in-progress marker. -/
theorem c1_unsynchronized_double_load_counterexample :
    ¬ ((HF.thread_run (fun _ => (0, 0)) "m"
        ⟨[], 0, [HF.TPC.start, HF.TPC.start]⟩ [0, 1, 0, 1, 0, 1]).loads ≤ 1) := by
  decide

/-- C1 amended: under the deployed cooperative single-threaded scheduling,
where the synchronous `load_model` contains no suspension point and therefore
runs atomically, N callers for one uncached identifier whose load succeeds
trigger exactly one underlying load (one new load event) and every caller
returns the same `LoadedModel`. -/
theorem c1_cooperative_single_load
    (tokO modO : String → Except String Nat) (name : String) (a b : Nat)
    (n : Nat) (σ : HF.HFState)
    (hnone : List.lookup name σ.loaded_models = none)
    (htok : tokO name = .ok a) (hmod : modO name = .ok b) (hn : 1 ≤ n) :
    (HF.run_acquires tokO modO name n σ).2.loadEvents = σ.loadEvents ++ [name] ∧
    ∀ r ∈ (HF.run_acquires tokO modO name n σ).1, r = .ok (b, a) := by
  obtain ⟨m, rfl⟩ : ∃ m, n = m + 1 := ⟨n - 1, (Nat.succ_pred_eq_of_pos hn).symm⟩
  have hload : HF.load_model tokO modO σ name =
      (.ok (b, a),
       ⟨dset σ.loaded_models name (b, a), σ.loadEvents ++ [name]⟩) := by
    simp [HF.load_model, hnone, htok, hmod]
  have hstep : HF.run_acquires tokO modO name (m + 1) σ =
      ((HF.load_model tokO modO σ name).1 ::
        (HF.run_acquires tokO modO name m
          (HF.load_model tokO modO σ name).2).1,
       (HF.run_acquires tokO modO name m
          (HF.load_model tokO modO σ name).2).2) := rfl
  have hcached : List.lookup name
      ((⟨dset σ.loaded_models name (b, a),
         σ.loadEvents ++ [name]⟩ : HF.HFState)).loaded_models = some (b, a) :=
    lookup_dset_self _ _ _
  rw [hstep, hload]
  dsimp only
  rw [run_acquires_cached tokO modO name (b, a) m _ hcached]
  constructor
  · rfl
  · intro r hr
    rcases List.mem_cons.mp hr with h1 | h2
    · exact h1
    · exact List.eq_of_mem_replicate h2

/-- Witness for C1's amended theorem: three callers on the empty cache, one
load event, all three results equal. -/
theorem c1_cooperative_single_load_witness :
    List.lookup "m" (HF.HFState.mk [] []).loaded_models = none ∧
    (HF.run_acquires (fun _ => .ok 1) (fun _ => .ok 2) "m" 3
      ⟨[], []⟩).2.loadEvents = [] ++ ["m"] ∧
    ∀ r ∈ (HF.run_acquires (fun _ => .ok 1) (fun _ => .ok 2) "m" 3 ⟨[], []⟩).1,
      r = .ok (2, 1) := by
  have h := c1_cooperative_single_load (fun _ => .ok 1) (fun _ => .ok 2) "m" 1 2 3
    ⟨[], []⟩ (by decide) rfl rfl (by decide)
  exact ⟨by decide, h.1, h.2⟩

end Marketplace
